import Mathlib

/-!
Verification of the terminal resume viewer (`src/terminal/resume.js`).

The development shallow-embeds the two core subsystems of the program:

* the raw-input key decoder (`RawInputStream.prototype._onData`,
  resume.js lines 91-164), including the function-key regular expression
  `functionKeyCodeRegex` (line 12-13), embedded as an explicit
  backtracking matcher with the same ordered-alternation semantics;
* the screen renderer (`ResumePrinter.prototype.printScreen`,
  lines 219-258) together with the `FormattedText` styled-text model
  (lines 264-293) and the scroll controller `onKeyPressed`
  (lines 525-551).

JavaScript strings are modelled as `List Char` (all characters involved
are in the Basic Multilingual Plane, so code-unit order and code-point
order coincide); JavaScript numbers that stay small integers are
modelled as `Nat`/`Int` with explicit two's-complement reduction where a
bitwise operator is applied.
-/

namespace Resume

/-- A decoded key event (resume.js lines 104-107): `{name, isControl}`. -/
structure Key where
  name : String
  isControl : Bool
deriving DecidableEq, Repr

/-- JavaScript `<=` on strings: lexicographic comparison by code unit
(resume.js line 116 `sequence <= '\x1a'`).  All characters compared in
the program are below `0x10000`, where code-unit order is code-point
order. -/
def jsLexLe : List Char → List Char → Bool
  | [], _ => true
  | _ :: _, [] => false
  | a :: as, b :: bs =>
    if a.toNat < b.toNat then true
    else if b.toNat < a.toNat then false
    else jsLexLe as bs

/-- Models `sequence.charCodeAt(0)` for a non-empty sequence. -/
def headCode : List Char → Nat
  | [] => 0
  | c :: _ => c.toNat

/-- The capture groups of `functionKeyCodeRegex` (resume.js lines 12-13):
`/^(?:\x1b+)(O|N|\[|\[\[)(?:(\d+)(?:;(\d+))?([~^$])|(?:1;)?(\d+)?([a-zA-Z]))/`.
`g1` is the introducer; `g2`,`g3`,`g4` come from the first alternative
(digits, digits after `;`, terminator symbol); `g5`,`g6` from the second
(digits, letter). -/
structure Parts where
  g1 : List Char
  g2 : Option (List Char)
  g3 : Option (List Char)
  g4 : Option Char
  g5 : Option (List Char)
  g6 : Option Char
deriving DecidableEq, Repr

/-- Terminator-symbol class `[~^$]` of the regex. -/
def isTilde (c : Char) : Bool := c = '~' || c = '^' || c = '$'

/-- Greedy `\d+` / `\d*`: longest digit prefix and the remainder. -/
def takeDigits : List Char → List Char × List Char
  | [] => ([], [])
  | c :: cs =>
    if c.isDigit then
      let r := takeDigits cs
      (c :: r.1, r.2)
    else ([], c :: cs)

/-- First alternative `(\d+)(?:;(\d+))?([~^$])` of the regex.  Greedy
digit matching never needs backtracking here because a digit is not in
`[~^$]` and not `;`; when the optional `;digits` group matched but the
terminator fails, the regex backtracks to an unmatched optional group
and then requires `[~^$]` at the `;`, which always fails. -/
def matchAlt1 (rest : List Char) : Option (List Char × Option (List Char) × Char) :=
  let r1 := takeDigits rest
  if r1.1 = [] then none
  else
    match r1.2 with
    | ';' :: r2 =>
      let r3 := takeDigits r2
      if r3.1 = [] then none
      else
        match r3.2 with
        | c :: _ => if isTilde c then some (r1.1, some r3.1, c) else none
        | [] => none
    | c :: _ => if isTilde c then some (r1.1, none, c) else none
    | [] => none

/-- Tail pattern `(\d+)?([a-zA-Z])` (shared tail of the second alternative).  Greedy
digits never backtrack against the letter class since a digit is not a
letter. -/
def matchDigitsLetter (r : List Char) : Option (Option (List Char) × Char) :=
  let d := takeDigits r
  match d.2 with
  | c :: _ =>
    if c.isAlpha then some ((if d.1 = [] then none else some d.1), c)
    else none
  | [] => none

/-- Second alternative `(?:1;)?(\d+)?([a-zA-Z])` with the ordered
backtracking of the optional `1;` prefix: try with `1;` consumed first,
fall back to not consuming it. -/
def matchAlt2 (rest : List Char) : Option (Option (List Char) × Char) :=
  match rest with
  | '1' :: ';' :: r2 =>
    match matchDigitsLetter r2 with
    | some res => some res
    | none => matchDigitsLetter rest
  | _ => matchDigitsLetter rest

/-- The `(?:alt1|alt2)` tail of the regex after the introducer, with the
regex's left-to-right alternative order. -/
def matchTail (g1 : List Char) (r : List Char) : Option Parts :=
  match matchAlt1 r with
  | some res => some ⟨g1, some res.1, res.2.1, some res.2.2, none, none⟩
  | none =>
    match matchAlt2 r with
    | some res => some ⟨g1, none, none, none, res.1, some res.2⟩
    | none => none

/-- The introducer alternation `(O|N|\[|\[\[)`.  `[` is tried before
`[[` (regex alternatives are ordered), with backtracking into `[[` when
the tail fails after a single `[`. -/
def matchIntroducer (rest : List Char) : Option Parts :=
  match rest with
  | 'O' :: r => matchTail ['O'] r
  | 'N' :: r => matchTail ['N'] r
  | '[' :: r =>
    match matchTail ['['] r with
    | some p => some p
    | none =>
      match r with
      | '[' :: r2 => matchTail ['[', '['] r2
      | _ => none
  | _ => none

/-- Greedy `\x1b+` after the first `\x1b`: drop the remaining leading
escapes.  The introducer class contains no `\x1b`, so the greedy match
is exact. -/
def dropEscs : List Char → List Char
  | '\x1b' :: r => dropEscs r
  | r => r

/-- Models `functionKeyCodeRegex.exec(sequence)` (resume.js line 120): `some`
of the capture groups on a successful anchored prefix match, `none`
otherwise. -/
def regexExec (s : List Char) : Option Parts :=
  match s with
  | '\x1b' :: rest => matchIntroducer (dropEscs rest)
  | _ => none

/-- Decimal value of a captured digit string (`parts[3] - 1` etc.
coerces the digit string through JavaScript `ToNumber`). -/
def digitsToNat (ds : List Char) : Nat :=
  ds.foldl (fun acc c => 10 * acc + (c.toNat - 48)) 0

/-- JavaScript `!!(m & 4)` on a (possibly negative) integer: bitwise
AND over the 32-bit two's-complement representation (resume.js
line 130). -/
def jsAnd4 (m : Int) : Bool :=
  Nat.land (m % (4294967296 : Int)).toNat 4 != 0

/-- The reassembled key code (resume.js lines 125-126):
`(parts[1]||'') + (parts[2]||'') + (parts[4]||'') + (parts[6]||'')`. -/
def reassembledCode (p : Parts) : List Char :=
  p.g1 ++ p.g2.getD [] ++
    (match p.g4 with | some c => [c] | none => []) ++
    (match p.g6 with | some c => [c] | none => [])

/-- The modifier value (resume.js line 127):
`(parts[3] || parts[5] || 1) - 1`.  Captured digit strings are
non-empty, hence truthy. -/
def modifierValue (p : Parts) : Int :=
  (match p.g3 with
   | some d => (digitsToNat d : Int)
   | none =>
     match p.g5 with
     | some d => (digitsToNat d : Int)
     | none => 1) - 1

/-- The `switch (code)` lookup table (resume.js lines 133-153); an
unmatched code leaves the name empty. -/
def codeToName (code : List Char) : String :=
  if code = "[A".data then "up"
  else if code = "[B".data then "down"
  else if code = "[C".data then "right"
  else if code = "[D".data then "left"
  else if code = "OA".data then "up"
  else if code = "OB".data then "down"
  else if code = "OC".data then "right"
  else if code = "OD".data then "left"
  else if code = "[5~".data then "page-up"
  else if code = "[6~".data then "page-down"
  else if code = "[[5~".data then "page-up"
  else if code = "[[6~".data then "page-down"
  else ""

/-- The key-decoding cascade of `_onData` (resume.js lines 104-154),
on the decoded character sequence. -/
def decodeChars (s : List Char) : Key :=
  if s = ['\r'] then ⟨"return", false⟩
  else if s = ['\n'] then ⟨"line-feed", false⟩
  else if s = ['\x1b'] ∨ s = ['\x1b', '\x1b'] then ⟨"escape", false⟩
  else if jsLexLe s ['\x1a'] then
    -- ctrl + letter: String.fromCharCode(sequence.charCodeAt(0) + 'a'.charCodeAt(0) - 1)
    ⟨String.mk [Char.ofNat (headCode s + 96)], true⟩
  else
    match regexExec s with
    | some parts =>
      ⟨codeToName (reassembledCode parts), jsAnd4 (modifierValue parts)⟩
    | none => ⟨"", false⟩

/-- The decoder `decode` on a JavaScript string chunk. -/
def decode (s : String) : Key := decodeChars s.data

/-! ### The value produced by `stringDecoder.write` and the high-bit repair

`_onData` (resume.js lines 93-102) first runs the chunk through
`stringDecoder.write` and then, *if the result is a Buffer*, applies the
single-high-byte repair.  `StringDecoder#write` returns a string for
every input (and with `stdin.setEncoding('utf8')` the chunk is already a
string, returned unchanged), so the repair guard `Buffer.isBuffer(sequence)`
can never hold. -/

/-- A value that is either a JavaScript string or a raw byte Buffer. -/
inductive JsVal where
  | str (s : String)
  | buf (bytes : List Nat)
deriving DecidableEq, Repr

/-- Models `Buffer#toString('utf-8')`: UTF-8 decoding with `U+FFFD`
replacement of invalid bytes (only ever applied to ASCII bytes on the
repair path modelled below). -/
def utf8Decode : List Nat → List Char
  | [] => []
  | b :: rest =>
    if b < 0x80 then Char.ofNat b :: utf8Decode rest
    else if b < 0xC0 then '�' :: utf8Decode rest
    else if b < 0xE0 then
      match rest with
      | b2 :: rest2 =>
        if 0x80 ≤ b2 && b2 < 0xC0 then
          Char.ofNat ((b - 0xC0) * 64 + (b2 - 0x80)) :: utf8Decode rest2
        else '�' :: utf8Decode (b2 :: rest2)
      | [] => ['�']
    else if b < 0xF0 then
      match rest with
      | b2 :: b3 :: rest3 =>
        if (0x80 ≤ b2 && b2 < 0xC0) && (0x80 ≤ b3 && b3 < 0xC0) then
          Char.ofNat ((b - 0xE0) * 4096 + (b2 - 0x80) * 64 + (b3 - 0x80)) :: utf8Decode rest3
        else '�' :: utf8Decode (b2 :: b3 :: rest3)
      | _ => ['�']
    else
      match rest with
      | b2 :: b3 :: b4 :: rest4 =>
        if ((0x80 ≤ b2 && b2 < 0xC0) && (0x80 ≤ b3 && b3 < 0xC0)) && (0x80 ≤ b4 && b4 < 0xC0) then
          Char.ofNat ((b - 0xF0) * 262144 + (b2 - 0x80) * 4096 + (b3 - 0x80) * 64 + (b4 - 0x80))
            :: utf8Decode rest4
        else '�' :: utf8Decode (b2 :: b3 :: b4 :: rest4)
      | _ => ['�']
termination_by l => l.length
decreasing_by all_goals simp +arith [List.length_cons]

/-- Models `stringDecoder.write(data)` (resume.js line 93): Node's
`StringDecoder#write` always returns a string; with
`stdin.setEncoding('utf8')` (line 86) the incoming chunk is itself a
string and is returned unchanged. -/
def stringDecoderWrite (data : String) : JsVal := JsVal.str data

/-- The high-bit-byte repair block (resume.js lines 95-102): when the
sequence is a Buffer consisting of a single byte above 127, clear the
high bit and prefix `ESC`; otherwise decode the Buffer as UTF-8 text.
A string value passes through unchanged. -/
def repairHighBit : JsVal → String
  | JsVal.str s => s
  | JsVal.buf bytes =>
    match bytes with
    | [b] =>
      if 127 < b then String.mk ('\x1b' :: utf8Decode [b - 128])
      else String.mk (utf8Decode [b])
    | _ => String.mk (utf8Decode bytes)

/-- The full `_onData` key computation for one chunk (resume.js
lines 91-154): string-decode, repair, then the decoding cascade. -/
def onDataKey (data : String) : Key :=
  decode (repairHighBit (stringDecoderWrite data))

/-! ### Decoder theorems -/

/-- C1: every entry of the escape-sequence lookup table decodes as
documented, with `isControl = false`. -/
theorem decode_lookup_table :
    decode "\x1b[A" = ⟨"up", false⟩ ∧ decode "\x1bOA" = ⟨"up", false⟩ ∧
    decode "\x1b[B" = ⟨"down", false⟩ ∧ decode "\x1bOB" = ⟨"down", false⟩ ∧
    decode "\x1b[C" = ⟨"right", false⟩ ∧ decode "\x1bOC" = ⟨"right", false⟩ ∧
    decode "\x1b[D" = ⟨"left", false⟩ ∧ decode "\x1bOD" = ⟨"left", false⟩ ∧
    decode "\x1b[5~" = ⟨"page-up", false⟩ ∧ decode "\x1b[[5~" = ⟨"page-up", false⟩ ∧
    decode "\x1b[6~" = ⟨"page-down", false⟩ ∧ decode "\x1b[[6~" = ⟨"page-down", false⟩ := by
  repeat' constructor <;> decide

/-- C2 counterexample: the escape sequence `ESC [1;5E` matches the
grammar, its reassembled code `[E` is not in the lookup table, yet the
decoded event has `isControl = true` (the string carries the ctrl
modifier `5`), contradicting the claim that every unrecognized escape
sequence yields `isControl = false`. -/
theorem decode_unknown_escape_cex :
    decode "\x1b[1;5E" = ⟨"", true⟩ ∧ decode "\x1b[1;5E" ≠ ⟨"", false⟩ := by
  decide

/-- C2 (amended): a chunk matching none of the decoding rules yields
`{name := "", isControl := false}` (and decoding is total, hence never
raises); a chunk that does match the escape-sequence grammar always
yields the table lookup of its reassembled code (empty name when the
code is unknown) with `isControl` equal to the decoded ctrl-modifier
bit, which may be `true`. -/
theorem decode_unmatched_and_unknown_escape :
    (∀ s : List Char, s ≠ ['\r'] → s ≠ ['\n'] →
      s ≠ ['\x1b'] → s ≠ ['\x1b', '\x1b'] →
      jsLexLe s ['\x1a'] = false → regexExec s = none →
      decodeChars s = ⟨"", false⟩) ∧
    (∀ (s : List Char) (p : Parts), s ≠ ['\r'] → s ≠ ['\n'] →
      s ≠ ['\x1b'] → s ≠ ['\x1b', '\x1b'] →
      jsLexLe s ['\x1a'] = false → regexExec s = some p →
      decodeChars s = ⟨codeToName (reassembledCode p), jsAnd4 (modifierValue p)⟩) := by
  constructor
  · intro s h1 h2 h3 h4 h5 h6
    unfold decodeChars
    simp [h1, h2, h3, h4, h5, h6]
  · intro s p h1 h2 h3 h4 h5 h6
    unfold decodeChars
    simp [h1, h2, h3, h4, h5, h6]

/-- Witness for the amended C2 at a concrete chunk matching no rule. -/
theorem decode_unmatched_witness :
    decodeChars "hello".data = ⟨"", false⟩ :=
  decode_unmatched_and_unknown_escape.1 "hello".data
    (by decide) (by decide) (by decide) (by decide) (by decide) (by decide)

/-- C6: a single character of code point at most `0x1A` that is neither
`\r` nor `\n` decodes to a ctrl+letter event: `isControl = true` and
the name is the character of code point `code + 96`
(i.e. `code - 1 + 'a'`). -/
theorem decode_ctrl_letter (c : Char) (h : c.toNat ≤ 26)
    (hr : c ≠ '\r') (hn : c ≠ '\n') :
    decodeChars [c] = ⟨String.mk [Char.ofNat (c.toNat + 96)], true⟩ := by
  have h27 : c ≠ '\x1b' := by
    intro he; subst he; revert h; decide
  have hle : jsLexLe [c] ['\x1a'] = true := by
    unfold jsLexLe
    rcases Nat.lt_or_ge c.toNat 26 with hlt | hge
    · simp
      exact Or.inl hlt
    · have heq : c.toNat = ('\x1a' : Char).toNat := Nat.le_antisymm h hge
      simp [heq, jsLexLe]
  unfold decodeChars
  simp [hr, hn, h27, hle, headCode]

/-- Witness for C6: `decode "\x03"` yields `{name := "c", isControl := true}`. -/
theorem decode_ctrl_letter_witness : decode "\x03" = ⟨"c", true⟩ := by
  have h := decode_ctrl_letter '\x03' (by decide) (by decide) (by decide)
  simpa [decode] using h

/-- C10: the control-character rule compares the whole chunk against
`"\x1a"` lexicographically, so a multi-character chunk whose first
character has code point below `0x1A` decodes as a ctrl event whose
name is derived from the first character alone; a chunk beginning with
code point 0 gets the name `` "`" `` (code point 96), outside `a`-`z`. -/
theorem decode_multichar_ctrl (c : Char) (rest : List Char)
    (hne : rest ≠ []) (h : c.toNat < 26) :
    decodeChars (c :: rest) = ⟨String.mk [Char.ofNat (c.toNat + 96)], true⟩ ∧
    (c.toNat = 0 → decodeChars (c :: rest) = ⟨"`", true⟩) := by
  have h27 : c ≠ '\x1b' := by
    intro he; subst he; revert h; decide
  have hmain : decodeChars (c :: rest) = ⟨String.mk [Char.ofNat (c.toNat + 96)], true⟩ := by
    have hle : jsLexLe (c :: rest) ['\x1a'] = true := by
      unfold jsLexLe
      simp
      exact Or.inl h
    unfold decodeChars
    simp [hne, h27, hle, headCode]
  refine ⟨hmain, fun h0 => ?_⟩
  rw [hmain, h0]

/-- Witness for C10 at the concrete chunk `"\x00q"`. -/
theorem decode_multichar_ctrl_witness :
    decodeChars ['\x00', 'q'] = ⟨"`", true⟩ :=
  (decode_multichar_ctrl '\x00' ['q'] (by decide) (by decide)).2 (by decide)

/-- C7: the high-bit-byte repair of resume.js lines 95-99 is
unreachable.  `stringDecoder.write` returns a string for every chunk,
so `Buffer.isBuffer(sequence)` never holds and `_onData` decodes every
chunk unrepaired: a lone high byte is never turned into
`ESC` + (byte with the high bit cleared), contrary to the documented
behaviour (the repair branch of `repairHighBit` is dead code). -/
theorem onData_highBit_repair_unreachable (data : String) :
    onDataKey data = decode data := rfl

/-! ### Styled text (`FormattedText`, resume.js lines 264-293)

`FormattedText(text, on, off)` stores a text that is either a plain
string (possibly a stringified number) or another `FormattedText`;
`formattedText()` returns `on + text + off`, where a nested
`FormattedText` is coerced through `toString()`, i.e. its own
`formattedText()`. -/

/-- A `FormattedText` value: `leaf` when the `text` field is a string,
`wrap` when it is another `FormattedText`. -/
inductive FText where
  | leaf (onCode : String) (text : String) (offCode : String)
  | wrap (onCode : String) (inner : FText) (offCode : String)
deriving DecidableEq, Repr

/-- The `on` code of a `FormattedText`. -/
def FText.onCode : FText → String
  | .leaf c _ _ => c
  | .wrap c _ _ => c

/-- The `off` code of a `FormattedText`. -/
def FText.offCode : FText → String
  | .leaf _ _ c => c
  | .wrap _ _ c => c

/-- The `text` field of a `FormattedText`, as the string it contributes
to the output (a nested `FormattedText` contributes its own
`formattedText()` via `toString()`). -/
def FText.textStr : FText → String
  | .leaf _ t _ => t
  | .wrap _ inner _ => inner.onCode ++ inner.textStr ++ inner.offCode

/-- Models `FormattedText.prototype.formattedText` (resume.js line 273):
`this.on + this.text + this.off`. -/
def FText.formattedText : FText → String
  | .leaf a t b => a ++ t ++ b
  | .wrap a inner b => a ++ inner.formattedText ++ b

/-- Source `colorText` (line 279): wrap in a color-on code and the
reset-foreground code. -/
def colorText (text : String) (color : String) : FText := .leaf color text "\x1b[39m"

/-- Source `greenText` (line 280). -/
def greenText (text : String) : FText := colorText text "\x1b[32m"

/-- Source `cyanText` (line 281). -/
def cyanText (text : String) : FText := colorText text "\x1b[36m"

/-- Source `yellowText` (line 282). -/
def yellowText (text : String) : FText := colorText text "\x1b[33m"

/-- Source `magentaText` (line 283). -/
def magentaText (text : String) : FText := colorText text "\x1b[35m"

/-- Source `boldText` (line 284), at the call sites where its argument is a
`FormattedText`. -/
def boldTextF (inner : FText) : FText := .wrap "\x1b[1m" inner "\x1b[22m"

/-- Source `underlineText` (line 285), at the call sites where its argument is
a `FormattedText`. -/
def underlineTextF (inner : FText) : FText := .wrap "\x1b[4m" inner "\x1b[24m"

/-- One element of a printable line: a plain string or a
`FormattedText` (the two cases `printFormattedText` distinguishes,
resume.js lines 196-205). -/
inductive Piece where
  | str (s : String)
  | fmt (f : FText)
deriving DecidableEq, Repr

/-- The bytes `printFormattedText` writes for one element (resume.js
lines 196-205): `text.formattedText()` for a `FormattedText`, the
string itself for a string. -/
def printFormattedText : Piece → String
  | .fmt f => f.formattedText
  | .str s => s

/-- The platform line terminator `os.EOL`. -/
def EOL : String := "\n"

/-- The bytes `printFormattedLine` writes for a line (resume.js
lines 207-212): each element in order, then `os.EOL`. -/
def printFormattedLine (line : List Piece) : String :=
  String.join (line.map printFormattedText) ++ EOL

/-! ### The screen renderer (`printScreen`, resume.js lines 219-258) -/

/-- The palette `TEXT_COLORS` (line 293): the four-color palette. -/
def TEXT_COLORS : List (String → FText) := [yellowText, greenText, cyanText, magentaText]

/-- Lookup `TEXT_COLORS[year % TEXT_COLORS.length]` (line 243), for the
non-negative years occurring in the program. -/
def textColor (year : Nat) : String → FText :=
  TEXT_COLORS.getD (year % TEXT_COLORS.length) yellowText

/-- The number of iterations of `new Range(0, stdout.columns / 2)`
(line 221): the loop `for (i = 0; i < columns / 2; i++)` with
JavaScript's exact (non-integer) division runs `⌈columns / 2⌉` times. -/
def separatorDashCount (columns : Nat) : Nat := (columns + 1) / 2

/-- The separator line (line 221):
`new Range(0, stdout.columns / 2).foldLeft([], this._createLine)`,
where `_createLine` (lines 214-217) pushes `yellowText('-')`. -/
def separator (columns : Nat) : List Piece :=
  (List.range (separatorDashCount columns)).foldl
    (fun result _ => result ++ [Piece.fmt (yellowText "-")]) []

/-- One element of `resumeLines`: `{ year, line }` where `line` is
either `HORIZONTAL_LINE` or an array of printable elements (resume.js
lines 484, 295-458). -/
structure Item where
  year : Nat
  line : Option (List Piece)  -- `none` models `HORIZONTAL_LINE`
deriving DecidableEq, Repr

/-- A content row emitted by `printScreen`: its year, whether the
year label was printed (`year != lastLineYear`), and the row body after
`HorizontalLine` substitution (the `line` value before the gutter
prefix is concatenated). -/
structure Row where
  year : Nat
  labeled : Bool
  body : List Piece
deriving DecidableEq, Repr

/-- The gutter prefix concatenated in front of the body (resume.js
lines 249-254): year label, bold colored `│` and spacing when the year
changed; six spaces, bold colored `│` otherwise. -/
def rowGutter (labeled : Bool) (year : Nat) : List Piece :=
  let color := textColor year
  if labeled then
    [.str " ", .fmt (underlineTextF (boldTextF (color (toString year)))), .str " ",
     .fmt (boldTextF (color "│")), .str " "]
  else
    [.str "      ", .fmt (boldTextF (color "│")), .str " "]

/-- The full printed pieces of an emitted row. -/
def Row.pieces (r : Row) : List Piece := rowGutter r.labeled r.year ++ r.body

/-- The content loop of `printScreen` (resume.js lines 236-257):
starting from the items at the scroll offset, emit rows while the
row budget lasts, substituting the separator for `HorizontalLine`
items and tracking `lastLineYear` (initially `-1`) to decide the year
label. -/
def renderRows (columns : Nat) (budget : Nat) (items : List Item)
    (lastLineYear : Int) : List Row :=
  match budget, items with
  | 0, _ => []
  | _, [] => []
  | budget' + 1, item :: rest =>
    ⟨item.year, decide ((item.year : Int) ≠ lastLineYear),
      match item.line with
      | none => separator columns
      | some ps => ps⟩ ::
    renderRows columns budget' rest
      (if (item.year : Int) ≠ lastLineYear then (item.year : Int) else lastLineYear)

/-- The header block of `printScreen` (lines 223-230) has six lines:
rule, four labeled fields, rule. -/
def headerLineCount : Nat := 6

/-- The content rows `printScreen(startIndex, lines)` emits for a
terminal of the given geometry: `rowCount = stdout.rows - 1 - header.length`
(line 237), looping `j < rowCount && i < lineCount` from `startIndex`
(line 239). -/
def printScreenRows (columns rows startIndex : Nat) (lines : List Item) : List Row :=
  renderRows columns (rows - 1 - headerLineCount) (lines.drop startIndex) (-1)

/-! ### The scroll controller (`onKeyPressed`, resume.js lines 525-551) -/

/-- An observable side effect of the scroll controller. -/
inductive Effect where
  | clearScreen
  | redraw (startIndex : Nat)
  | resetTerminal
  | pauseStdin
deriving DecidableEq, Repr

/-- The scroll controller state: the captured `startIndex` and whether
stdin has been paused (after `stdin.pause()` no further `data` events —
hence no keypress events — are delivered). -/
structure ScrollState where
  startIndex : Nat
  stopped : Bool
deriving DecidableEq, Repr

/-- State `Viewing(0)`: the state in which the resume screen is first shown
(resume.js line 526). -/
def initialScrollState : ScrollState := ⟨0, false⟩

/-- One step of `onKeyPressed` (resume.js lines 528-550) for a
collection of `lineCount` lines: the next state and the effects
performed.  When stdin is already paused the handler is never invoked,
so the state is absorbing. -/
def onKeyPressed (lineCount : Nat) (st : ScrollState) (key : Key) :
    ScrollState × List Effect :=
  if st.stopped then (st, [])
  else if key.isControl && key.name == "c" then
    ({ st with stopped := true }, [.resetTerminal, .pauseStdin])
  else if key.name == "up" then
    if st.startIndex > 0 then
      ({ st with startIndex := st.startIndex - 1 },
       [.clearScreen, .redraw (st.startIndex - 1)])
    else (st, [])
  else if key.name == "down" then
    if st.startIndex < lineCount - 1 then
      ({ st with startIndex := st.startIndex + 1 },
       [.clearScreen, .redraw (st.startIndex + 1)])
    else ({ st with stopped := true }, [.resetTerminal, .pauseStdin])
  else (st, [])

/-- Folding a whole key-event sequence through the controller. -/
def runKeys (lineCount : Nat) (keys : List Key) : ScrollState :=
  keys.foldl (fun st k => (onKeyPressed lineCount st k).1) initialScrollState

/-! ### Styled-text and renderer theorems -/

/-- Folding a push over any list appends one copy per element. -/
lemma foldl_push_replicate {α β : Type} (l : List β) (x : α) :
    ∀ acc : List α, l.foldl (fun r _ => r ++ [x]) acc = acc ++ List.replicate l.length x := by
  induction l with
  | nil => intro acc; simp
  | cons c cs ih =>
    intro acc
    simp only [List.foldl_cons, ih, List.length_cons, List.replicate_succ,
      List.append_assoc, List.singleton_append]

/-- The separator row is `⌈columns / 2⌉` yellow dashes. -/
lemma separator_eq_replicate (columns : Nat) :
    separator columns = List.replicate ((columns + 1) / 2) (Piece.fmt (yellowText "-")) := by
  unfold separator separatorDashCount
  rw [foldl_push_replicate]
  simp

/-- C9: the bytes written for a `FormattedText` are exactly
`onCode ++ text ++ offCode` — `formattedText()` concatenates the three
fields and `printFormattedText` writes the result unchanged. -/
theorem styled_segment_roundtrip (f : FText) :
    printFormattedText (Piece.fmt f) = f.onCode ++ f.textStr ++ f.offCode := by
  show f.formattedText = f.onCode ++ f.textStr ++ f.offCode
  induction f with
  | leaf a t b => rfl
  | wrap a inner b ih =>
    simp [FText.formattedText, FText.onCode, FText.textStr, FText.offCode, ih]

/-- Lemma: `renderRows` never emits more rows than its budget. -/
lemma renderRows_length_le (items : List Item) :
    ∀ (columns budget : Nat) (lastY : Int),
      (renderRows columns budget items lastY).length ≤ budget := by
  induction items with
  | nil => intro columns budget lastY; cases budget <;> simp [renderRows]
  | cons item rest ih =>
    intro columns budget lastY
    cases budget with
    | zero => simp [renderRows]
    | succ b =>
      simp only [renderRows, List.length_cons]
      exact Nat.succ_le_succ (ih columns b _)

/-- The label flag of each emitted row: the first one relative to the
incoming `lastLineYear`, each later one relative to the year of the row
emitted just before it. -/
lemma renderRows_label_chain (items : List Item) :
    ∀ (columns budget : Nat) (lastY : Int),
      (∀ r ∈ (renderRows columns budget items lastY).head?,
          (r.labeled = true ↔ (r.year : Int) ≠ lastY)) ∧
      List.Chain' (fun prev cur => (cur.labeled = true ↔ cur.year ≠ prev.year))
        (renderRows columns budget items lastY) := by
  induction items with
  | nil => intro columns budget lastY; cases budget <;> simp [renderRows]
  | cons item rest ih =>
    intro columns budget lastY
    cases budget with
    | zero => simp [renderRows]
    | succ b =>
      have hNew : (if (item.year : Int) ≠ lastY then (item.year : Int) else lastY)
          = (item.year : Int) := by
        by_cases hc : (item.year : Int) ≠ lastY
        · simp [hc]
        · push_neg at hc
          simp [hc]
      constructor
      · intro r hr
        simp only [renderRows, List.head?_cons, Option.mem_def, Option.some.injEq] at hr
        subst hr
        simp
      · simp only [renderRows]
        rw [List.chain'_cons']
        constructor
        · intro cur hcur
          have h1 := (ih columns b _).1 cur hcur
          rw [hNew] at h1
          simpa [Nat.cast_inj] using h1
        · exact (ih columns b _).2

/-- Each emitted row's body is its item's line, with the separator
substituted for `HorizontalLine` items. -/
lemma renderRows_body_forall2 (items : List Item) :
    ∀ (columns budget : Nat) (lastY : Int),
      List.Forall₂
        (fun (item : Item) (r : Row) =>
          r.body = match item.line with
            | none => List.replicate ((columns + 1) / 2) (Piece.fmt (yellowText "-"))
            | some ps => ps)
        (items.take (renderRows columns budget items lastY).length)
        (renderRows columns budget items lastY) := by
  induction items with
  | nil => intro columns budget lastY; cases budget <;> simp [renderRows]
  | cons item rest ih =>
    intro columns budget lastY
    cases budget with
    | zero => simp [renderRows]
    | succ b =>
      simp only [renderRows, List.length_cons, List.take_succ_cons]
      exact List.Forall₂.cons (by cases h : item.line <;> simp [h, separator_eq_replicate])
        (ih columns b _)

/-- C5: for any collection, offset and geometry, `printScreen` emits at
most `rows - 1 - headerLineCount` content rows, and among the emitted
rows every one after the first carries the year label exactly when its
year differs from the year of the row emitted immediately before it. -/
theorem printScreen_row_bound_and_band_labels
    (columns rows startIndex : Nat) (lines : List Item) :
    (printScreenRows columns rows startIndex lines).length ≤ rows - 1 - headerLineCount ∧
    List.Chain' (fun prev cur => (cur.labeled = true ↔ cur.year ≠ prev.year))
      (printScreenRows columns rows startIndex lines) :=
  ⟨renderRows_length_le _ _ _ _, (renderRows_label_chain _ _ _ _).2⟩

/-- C8 counterexample: at `columns = 80` a separator row in the band of
year 2007 is rendered as 40 yellow dashes — not as `columns - 8 = 72`
dashes in the band's palette color (`textColor 2007`, magenta), as the
claim states. -/
theorem separator_claim_cex :
    ((printScreenRows 80 20 0 [⟨2007, none⟩]).getD 0 ⟨0, false, []⟩).body
        = List.replicate 40 (Piece.fmt (yellowText "-")) ∧
    ((printScreenRows 80 20 0 [⟨2007, none⟩]).getD 0 ⟨0, false, []⟩).body
        ≠ List.replicate (80 - 8) (Piece.fmt (textColor 2007 "-")) := by
  constructor
  · decide
  · decide

/-- C8 (amended): every rendered separator row has its content replaced
by `⌈columns / 2⌉` dash glyphs, all colored yellow, independent of the
band's palette color. -/
theorem separator_rows_amended (columns rows startIndex : Nat) (lines : List Item) :
    List.Forall₂
      (fun (item : Item) (r : Row) =>
        r.body = match item.line with
          | none => List.replicate ((columns + 1) / 2) (Piece.fmt (yellowText "-"))
          | some ps => ps)
      ((lines.drop startIndex).take (printScreenRows columns rows startIndex lines).length)
      (printScreenRows columns rows startIndex lines) :=
  renderRows_body_forall2 _ _ _ _

/-! ### Scroll-controller theorems -/

/-- C3: the scroll boundary is asymmetric.  In `Viewing(0)` an `up`
event leaves the state unchanged and performs no effect at all (no
redraw); in `Viewing(lastIndex)` a `down` event pauses stdin
(the terminated, absorbing state) performing exactly one terminal
reset and one stdin pause. -/
theorem scroll_boundary_asymmetric (lineCount : Nat) (kUp kDown : Key)
    (hup : kUp.name = "up") (hdown : kDown.name = "down") :
    onKeyPressed lineCount ⟨0, false⟩ kUp = (⟨0, false⟩, []) ∧
    onKeyPressed lineCount ⟨lineCount - 1, false⟩ kDown
      = (⟨lineCount - 1, true⟩, [Effect.resetTerminal, Effect.pauseStdin]) := by
  constructor
  · unfold onKeyPressed
    simp [hup]
  · unfold onKeyPressed
    simp [hdown]

/-- Witness for C3 with a three-line collection and plain arrow keys. -/
theorem scroll_boundary_asymmetric_witness :
    onKeyPressed 3 ⟨0, false⟩ ⟨"up", false⟩ = (⟨0, false⟩, []) ∧
    onKeyPressed 3 ⟨2, false⟩ ⟨"down", false⟩
      = (⟨2, true⟩, [Effect.resetTerminal, Effect.pauseStdin]) :=
  scroll_boundary_asymmetric 3 ⟨"up", false⟩ ⟨"down", false⟩ rfl rfl

/-- A single controller step keeps the offset within bounds. -/
lemma onKeyPressed_preserves_bound (lineCount : Nat) (st : ScrollState) (k : Key)
    (h : st.startIndex ≤ lineCount - 1) :
    (onKeyPressed lineCount st k).1.startIndex ≤ lineCount - 1 := by
  unfold onKeyPressed
  split_ifs <;> simp_all <;> omega

/-- C4: starting from `Viewing(0)`, after any sequence of key events
over a non-empty collection the offset stays between `0` (it is a
natural number, and the code only decrements a positive offset) and
`lineCount - 1`. -/
theorem scroll_offset_invariant (lineCount : Nat) (hpos : 0 < lineCount)
    (keys : List Key) :
    (runKeys lineCount keys).startIndex ≤ lineCount - 1 := by
  have gen : ∀ (ks : List Key) (st : ScrollState), st.startIndex ≤ lineCount - 1 →
      (ks.foldl (fun s k => (onKeyPressed lineCount s k).1) st).startIndex ≤ lineCount - 1 := by
    intro ks
    induction ks with
    | nil => intro st h; exact h
    | cons k ks ih =>
      intro st h
      exact ih _ (onKeyPressed_preserves_bound lineCount st k h)
  exact gen keys initialScrollState (by simp [initialScrollState])

/-- Witness for C4: a concrete run over a two-line collection. -/
theorem scroll_offset_invariant_witness :
    (runKeys 2 [⟨"down", false⟩, ⟨"down", false⟩, ⟨"up", false⟩]).startIndex ≤ 1 :=
  scroll_offset_invariant 2 (by decide)
    [⟨"down", false⟩, ⟨"down", false⟩, ⟨"up", false⟩]

end Resume

